import Mathlib

/-!
# FileSearcher-Brit: verified model of the filter / format pipeline

A shallow embedding of `filesearch.go`.  The program is a linear
pipeline: parse the flags into a `Config`, normalize the extension list into
a set, walk the target directory (flat or recursive), filter each file
with `isMatch`, and render the surviving records.  Every definition
below is translated directly from the Go source; helper models of the
Go standard-library functions the source calls (`strings.TrimSpace`,
`strings.ToLower`, `strconv.Atoi`, `filepath.Ext`, `strings.Split`,
`strings.ReplaceAll`) are stated over the characters of the string.
-/

/-! ## Models of the Go standard-library calls used by the source -/

/-- Code points accepted by Go `unicode.IsSpace` (the White_Space
property): the ASCII spaces, NEL, NBSP and the Unicode space block. -/
def spaceCodes : List Nat :=
  [9, 10, 11, 12, 13, 32, 133, 160, 5760, 8192, 8193, 8194, 8195, 8196,
   8197, 8198, 8199, 8200, 8201, 8202, 8232, 8233, 8239, 8287, 12288]

/-- Go `unicode.IsSpace` on one character: membership of its code
point in `spaceCodes`. -/
def isGoSpace (c : Char) : Bool := decide (c.toNat ∈ spaceCodes)

/-- Character-level body of Go `strings.TrimSpace`: drop spaces from
the front, then from the back. -/
def trimChars (l : List Char) : List Char :=
  ((l.dropWhile isGoSpace).reverse.dropWhile isGoSpace).reverse

/-- Go `strings.TrimSpace`. -/
def goTrimSpace (s : String) : String := String.mk (trimChars s.data)

/-- Go `unicode.ToLower` restricted to ASCII letters, which is all the
source ever feeds it (extension strings).  Non-letters are unchanged. -/
def lowerChar (c : Char) : Char :=
  if 65 ≤ c.toNat ∧ c.toNat ≤ 90 then Char.ofNat (c.toNat + 32) else c

/-- Go `strings.ToLower` (ASCII fragment, see `lowerChar`). -/
def goToLower (s : String) : String := String.mk (s.data.map lowerChar)

/-- Digit run of Go `strconv.Atoi`: value of a non-empty all-digit
character list, `none` as soon as a non-digit appears. -/
def digitsVal : List Char → Nat → Option Nat
  | [], acc => some acc
  | c :: cs, acc =>
      if c.isDigit then digitsVal cs (10 * acc + (c.toNat - 48)) else none

/-- A non-empty list of decimal digits, valued; `none` otherwise. -/
def parseNatChars : List Char → Option Nat
  | [] => none
  | cs => digitsVal cs 0

/-- Go `strconv.Atoi`: optional sign then a non-empty digit run.
`none` models the error return (Go also returns value `0` then, which
the caller in `isMatch` keeps because it discards the error).  The
64-bit clamp of Go `ErrRange` is not modelled: no claim involves a
component beyond the `int64` range. -/
def atoi (s : String) : Option Int :=
  match s.data with
  | '+' :: rest => (parseNatChars rest).map (fun n => (n : Int))
  | '-' :: rest => (parseNatChars rest).map (fun n => -(n : Int))
  | cs => (parseNatChars cs).map (fun n => (n : Int))

/-- The value the source actually uses after `reqD, _ := strconv.Atoi(...)`:
the parsed integer, or `0` when parsing failed (Go returns `0` with an
error and the error is discarded). -/
def atoiVal (s : String) : Int := (atoi s).getD 0

/-- Backward scan of Go `filepath.Ext` over the reversed characters:
stop at a path separator, return the suffix from the last dot. -/
def goExtAux : List Char → List Char → List Char
  | [], _ => []
  | c :: rest, acc =>
      if c = '/' then []
      else if c = '.' then '.' :: acc
      else goExtAux rest (c :: acc)

/-- Go `filepath.Ext`: the suffix beginning at the final dot of the
final path element; empty when there is no dot. -/
def goExt (name : String) : String := String.mk (goExtAux name.data.reverse [])

/-- Character-level body of Go `strings.Split` for a one-character
separator (the source only splits on `"/"` and `","`): the substrings
between separators, in order; the empty input yields one empty part. -/
def splitChar (sep : Char) : List Char → List (List Char)
  | [] => [[]]
  | c :: cs =>
      let r := splitChar sep cs
      if c = sep then [] :: r
      else
        match r with
        | t :: ts => (c :: t) :: ts
        | [] => [[c]]

/-- Go `strings.Split` with a one-character separator. -/
def goSplit (s : String) (sep : Char) : List String :=
  (splitChar sep s.data).map String.mk

/-- Go `strings.ReplaceAll` where the pattern and the replacement are
single characters (the source replaces `","` by `"_"`), which is a
character map. -/
def goReplaceAll (s : String) (old new : Char) : String :=
  String.mk (s.data.map (fun c => if c = old then new else c))

/-! ## Data model (`Config`, file metadata, `FileResult`) -/

/-- `Config` from `parseFlags`: the command-line options. -/
structure Config where
  dir : String
  day : Int
  month : Int
  year : Int
  allDate : String
  recursive : Bool
  extensions : String
  outputFormat : String
deriving DecidableEq

/-- The slice of `os.FileInfo` the program reads: base name, the
year/month/day of `ModTime().Date()`, and the size in bytes. -/
structure FileMeta where
  name : String
  modYear : Int
  modMonth : Int
  modDay : Int
  size : Int
deriving DecidableEq

/-- `FileResult` from `buildResult`: the fields carried to the
formatters.  The joined path and the fixed-layout display string are
derived presentation data not referenced by any property here, so the
record keeps the underlying name, date and size. -/
structure FileResult where
  name : String
  modYear : Int
  modMonth : Int
  modDay : Int
  size : Int
deriving DecidableEq

/-- `buildResult`: package a matched file's metadata. -/
def buildResult (info : FileMeta) : FileResult :=
  ⟨info.name, info.modYear, info.modMonth, info.modDay, info.size⟩

/-! ## Extension set builder (`main`, lines 73-83) -/

/-- Character-level body of one entry's normalization:
`strings.ToLower(strings.TrimSpace(p))`, then prefix a dot unless the
entry already starts with one (`strings.HasPrefix(ext, ".")`, which for
the one-character pattern `"."` is exactly a head test). -/
def normalizeExtChars (l : List Char) : List Char :=
  let e := (trimChars l).map lowerChar
  if e.head? = some '.' then e else '.' :: e

/-- Normalization of one comma-separated entry. -/
def normalizeExt (p : String) : String := String.mk (normalizeExtChars p.data)

/-- The allowed-extension set built in `main`: empty when the flag is
empty, otherwise every comma-separated entry normalized.  The Go map
only ever stores `true`, so it is a set; the list keeps entry order. -/
def buildExts (s : String) : List String :=
  if s == "" then [] else (goSplit s ',').map normalizeExt

/-! ## The match predicate (`isMatch`, lines 244-283) -/

/-- The independent year/month/day fall-through of `isMatch`
(lines 271-282): each non-zero field must equal the file's field. -/
def independentDateMatch (f : FileMeta) (c : Config) : Bool :=
  if c.year != 0 && c.year != f.modYear then false
  else if c.month != 0 && c.month != f.modMonth then false
  else if c.day != 0 && c.day != f.modDay then false
  else true

/-- The date dimension of `isMatch` (lines 253-282): when the `-all`
string is non-empty and splits on `/` into exactly three parts, compare
the (error-discarding) `Atoi` of the parts against day, month, year;
otherwise fall through to the independent fields. -/
def dateMatch (f : FileMeta) (c : Config) : Bool :=
  if c.allDate != "" then
    match goSplit c.allDate '/' with
    | [sd, sm, sy] =>
        if atoiVal sd != f.modDay || atoiVal sm != f.modMonth
            || atoiVal sy != f.modYear then false
        else true
    | _ => independentDateMatch f c
  else independentDateMatch f c

/-- `isMatch`: extension test first (`exts[ext]` on the Go map is
membership, every stored value being `true`), then the date logic. -/
def isMatch (f : FileMeta) (c : Config) (exts : List String) : Bool :=
  if exts.length > 0 then
    if !(exts.contains (goToLower (goExt f.name))) then false
    else dateMatch f c
  else dateMatch f c

/-! ## Flat traversal (`scanFlat`, lines 156-188)

The directory listing is a list of entries; `info = none` models a
failing `entry.Info()` call.  The state is the pair of the running
`scannedCount` and the accumulated result list, threaded explicitly in
place of the Go package-level counter. -/

/-- One entry of `os.ReadDir`: name, directory bit, and the metadata
(`none` when `entry.Info()` errors). -/
structure DirEntry where
  name : String
  isDir : Bool
  info : Option FileMeta
deriving DecidableEq

/-- `scanFlat`: for every entry the counter is bumped first; then
directories are skipped, then entries whose metadata cannot be read,
and the survivors are matched. -/
def scanFlatGo (c : Config) (exts : List String) :
    List DirEntry → Nat × List FileResult → Nat × List FileResult
  | [], st => st
  | e :: rest, st =>
      let scanned := st.1 + 1
      if e.isDir then scanFlatGo c exts rest (scanned, st.2)
      else
        match e.info with
        | none => scanFlatGo c exts rest (scanned, st.2)
        | some info =>
            if isMatch info c exts then
              scanFlatGo c exts rest (scanned, st.2 ++ [buildResult info])
            else scanFlatGo c exts rest (scanned, st.2)

/-! ## Recursive traversal (`scanRecursive`, lines 191-231)

`filepath.WalkDir` visits a directory, then reads its children; when
reading fails it calls the callback again with the error, and the
callback's `filepath.SkipDir` prunes exactly that branch.  A node is a
file (with `none` again modelling a failing `d.Info()`) or a directory
whose `accessErr` flag says its children cannot be read. -/

/-- A node of the scanned tree. -/
inductive FSNode where
  | file (info : Option FileMeta)
  | dir (name : String) (accessErr : Bool) (children : List FSNode)

mutual

/-- The `WalkDir` callback of `scanRecursive` applied to one node.  A
directory itself is only displayed (no counting); an unreadable one is
pruned by `SkipDir`.  A file bumps the counter before its metadata is
read, then is matched. -/
def walkNode (c : Config) (exts : List String) :
    FSNode → Nat × List FileResult → Nat × List FileResult
  | .file info, st =>
      let scanned := st.1 + 1
      match info with
      | none => (scanned, st.2)
      | some fm =>
          if isMatch fm c exts then (scanned, st.2 ++ [buildResult fm])
          else (scanned, st.2)
  | .dir _ accessErr children, st =>
      if accessErr then st else walkList c exts children st

/-- Children of a directory, walked in order. -/
def walkList (c : Config) (exts : List String) :
    List FSNode → Nat × List FileResult → Nat × List FileResult
  | [], st => st
  | n :: rest, st => walkList c exts rest (walkNode c exts n st)

end

mutual

/-- The file nodes a deep scan actually visits: directories count for
nothing, an unreadable directory hides its whole subtree, and every
visited file counts whether or not its metadata is readable. -/
def fileNodeCount : FSNode → Nat
  | .file _ => 1
  | .dir _ accessErr children => if accessErr then 0 else fileListCount children

/-- Sum of `fileNodeCount` over a list of siblings. -/
def fileListCount : List FSNode → Nat
  | [] => 0
  | n :: rest => fileNodeCount n + fileListCount rest

end

/-! ## Size formatting (`formatSize`, lines 366-381) -/

/-- Round `num / den` to the nearest integer, ties to even: what Go
`fmt` does when shortening a float to a fixed number of decimals. -/
def roundHalfEven (num den : Nat) : Nat :=
  let q := num / den
  let r := num % den
  if 2 * r < den then q
  else if den < 2 * r then q + 1
  else if q % 2 = 0 then q else q + 1

/-- Go `fmt.Sprintf("%.2f", float64(bytes)/float64(unit))` for
`unit` a power of two and `bytes < 2^53`: in that range the `float64`
conversion and the division are exact, so the printed value is exactly
`bytes/unit` rounded to hundredths, ties to even. -/
def fmtF2 (bytes unit : Nat) : String :=
  let h := roundHalfEven (bytes * 100) unit
  toString (h / 100) ++ "." ++ toString (h / 10 % 10) ++ toString (h % 10)

/-- `formatSize`: largest applicable unit by 1024-based thresholds,
two decimals for KB/MB/GB, bare integer for bytes. -/
def formatSize (bytes : Int) : String :=
  if bytes ≥ 1073741824 then fmtF2 bytes.toNat 1073741824 ++ " GB"
  else if bytes ≥ 1048576 then fmtF2 bytes.toNat 1048576 ++ " MB"
  else if bytes ≥ 1024 then fmtF2 bytes.toNat 1024 ++ " KB"
  else toString bytes ++ " B"

/-! ## Output routing (`handleOutput`, `generateFilename`, `main`) -/

/-- `generateFilename` (lines 358-364): `prefix_extPart.suffix`, where
`extPart` is `"all"` for an empty extension flag and otherwise the raw
flag with commas turned into underscores. -/
def generateFilename (pre exts suf : String) : String :=
  let extPart := if exts == "" then "all" else goReplaceAll exts ',' '_'
  pre ++ "_" ++ extPart ++ "." ++ suf

/-- What `handleOutput` does: write a report file with a generated
name, or print the table to the console. -/
inductive OutputAction where
  | printTable
  | saveFile (filename : String)
deriving DecidableEq

/-- `handleOutput` (lines 286-295): route on the lowercased format;
`saveJSON` and `saveMarkdown` both write to `generateFilename` with
prefix `"output"` and their format suffix; anything else is tabular. -/
def handleOutputAction (c : Config) : OutputAction :=
  if goToLower c.outputFormat == "json" then
    .saveFile (generateFilename "output" c.extensions "json")
  else if goToLower c.outputFormat == "md" then
    .saveFile (generateFilename "output" c.extensions "md")
  else .printTable

/-- The tail of `main` (lines 132-138): with zero results it prints the
warning and returns (the process then exits with status zero, no
formatter runs); otherwise it hands the results to `handleOutput`. -/
inductive MainOutput where
  | warnNoFiles
  | out (a : OutputAction)
deriving DecidableEq

/-- Decision taken by `main` after a successful scan. -/
def mainOutput (results : List FileResult) (c : Config) : MainOutput :=
  if results.length == 0 then .warnNoFiles
  else .out (handleOutputAction c)

/-! ## Date logic: helper lemmas -/

/-- Splitting the empty string yields one empty part. -/
theorem goSplit_empty_slash : goSplit "" '/' = [""] := rfl

/-- Whenever the `-all` string splits on `/` into exactly three parts,
those parts alone decide the date dimension, through the
error-discarding `Atoi` values. -/
theorem dateMatch_split3 (f : FileMeta) (c : Config) (sd sm sy : String)
    (h : goSplit c.allDate '/' = [sd, sm, sy]) :
    dateMatch f c
      = (atoiVal sd == f.modDay && atoiVal sm == f.modMonth
          && atoiVal sy == f.modYear) := by
  have hne : c.allDate ≠ "" := by
    intro he
    rw [he, goSplit_empty_slash] at h
    simp at h
  unfold dateMatch
  rw [if_pos (bne_iff_ne.mpr hne), h]
  cases hd : atoiVal sd == f.modDay <;> cases hm : atoiVal sm == f.modMonth <;>
    cases hy : atoiVal sy == f.modYear <;> simp [bne, hd, hm, hy]

/-- When the `-all` string does not split into exactly three parts, the
date dimension falls through to the independent fields. -/
theorem dateMatch_fallback (f : FileMeta) (c : Config)
    (h : (goSplit c.allDate '/').length ≠ 3) :
    dateMatch f c = independentDateMatch f c := by
  unfold dateMatch
  by_cases he : c.allDate = ""
  · rw [he]; rfl
  · rw [if_pos (bne_iff_ne.mpr he)]
    cases hs : goSplit c.allDate '/' with
    | nil => rfl
    | cons a l1 =>
      cases l1 with
      | nil => rfl
      | cons b l2 =>
        cases l2 with
        | nil => rfl
        | cons d l3 =>
          cases l3 with
          | nil => exact absurd (by rw [hs]; rfl) h
          | cons e l4 => rfl

/-- The independent fall-through, written as the conjunction of the
three per-field constraints. -/
theorem independentDateMatch_eq (f : FileMeta) (c : Config) :
    independentDateMatch f c
      = ((c.year == 0 || c.year == f.modYear)
          && (c.month == 0 || c.month == f.modMonth)
          && (c.day == 0 || c.day == f.modDay)) := by
  unfold independentDateMatch
  cases h1 : c.year == 0 <;> cases h2 : c.year == f.modYear <;>
  cases h3 : c.month == 0 <;> cases h4 : c.month == f.modMonth <;>
  cases h5 : c.day == 0 <;> cases h6 : c.day == f.modDay <;>
    simp [bne, h1, h2, h3, h4, h5, h6]

/-! ## C1 -/

/-- C1: when the combined exact-date filter is present and well-formed
(three `/`-separated parts, all valid integers), the date dimension
accepts exactly when the file's day, month and year equal the three
components; a mismatch in any one component rejects, and — `c` being
arbitrary in its `day`/`month`/`year` fields, which do not occur on the
right-hand side — the independent fields are never consulted. -/
theorem c1_combined_date_sole_criterion (f : FileMeta) (c : Config)
    (sd sm sy : String) (pd pm py : Int)
    (hs : goSplit c.allDate '/' = [sd, sm, sy])
    (hd : atoi sd = some pd) (hm : atoi sm = some pm)
    (hy : atoi sy = some py) :
    dateMatch f c = (pd == f.modDay && pm == f.modMonth && py == f.modYear) := by
  rw [dateMatch_split3 f c sd sm sy hs]
  simp [atoiVal, hd, hm, hy]

/-- C1 witness: file of 2024-01-15 against `-all 15/1/2024`, with
clashing independent fields 7/8/9 that are ignored. -/
theorem c1_witness :
    dateMatch ⟨"a.go", 2024, 1, 15, 0⟩ ⟨".", 7, 8, 9, "15/1/2024", false, "", "tabular"⟩
      = true := by
  rw [c1_combined_date_sole_criterion ⟨"a.go", 2024, 1, 15, 0⟩
    ⟨".", 7, 8, 9, "15/1/2024", false, "", "tabular"⟩ "15" "1" "2024" 15 1 2024
    (by decide) (by decide) (by decide) (by decide)]
  decide

/-! ## C2 -/

/-- C2 counterexample: `-all "x/1/2024"` splits into three parts but the
day component is not a valid integer, so the claim says the string is
ignored and the (all-zero) independent fields accept the file; the code
instead lets the three-part string govern — the failed `Atoi` yields
`0`, `0 ≠ 15` — and rejects. -/
theorem c2_counterexample :
    atoi "x" = none ∧ (goSplit "x/1/2024" '/').length = 3 ∧
    isMatch ⟨"a.txt", 2024, 1, 15, 0⟩
      ⟨".", 0, 0, 0, "x/1/2024", false, "", "tabular"⟩ [] = false ∧
    independentDateMatch ⟨"a.txt", 2024, 1, 15, 0⟩
      ⟨".", 0, 0, 0, "x/1/2024", false, "", "tabular"⟩ = true := by
  decide

/-- C2 (amended): a present combined exact-date filter governs the date
decision whenever it splits into exactly three components, whether or
not the components are syntactically valid integers — an invalid
component parses to `0`, which then must equal the corresponding field
of the file's date; only when the split does not yield exactly three
parts is the string silently ignored, with the independent field logic
deciding instead and no error reported. -/
theorem c2_amended_three_parts_govern (f : FileMeta) (c : Config)
    (sd sm sy : String) (hs : goSplit c.allDate '/' = [sd, sm, sy]) :
    dateMatch f c
      = (atoiVal sd == f.modDay && atoiVal sm == f.modMonth
          && atoiVal sy == f.modYear) :=
  dateMatch_split3 f c sd sm sy hs

/-- C2 witness: the amended theorem applied to the counterexample
input, whose malformed day component parses to `0` and rejects. -/
theorem c2_amended_witness :
    dateMatch ⟨"b.txt", 2024, 1, 15, 0⟩
      ⟨".", 0, 0, 0, "x/1/2024", false, "", "tabular"⟩ = false := by
  rw [c2_amended_three_parts_govern ⟨"b.txt", 2024, 1, 15, 0⟩
    ⟨".", 0, 0, 0, "x/1/2024", false, "", "tabular"⟩ "x" "1" "2024" (by decide)]
  decide

/-! ## C3 -/

/-- C3: with a non-empty extension set, a file whose lowercased
extension is not a member is rejected outright — the date fields of the
file and of the configuration (both arbitrary here) are never
reached. -/
theorem c3_extension_gate (f : FileMeta) (c : Config) (exts : List String)
    (hne : exts ≠ []) (hmem : exts.contains (goToLower (goExt f.name)) = false) :
    isMatch f c exts = false := by
  unfold isMatch
  rw [if_pos (List.length_pos.mpr hne), hmem]
  rfl

/-- C3 witness: `b.py` against the `.go` set, with a date filter the
file would have satisfied. -/
theorem c3_witness :
    isMatch ⟨"b.py", 2024, 1, 15, 0⟩
      ⟨".", 15, 1, 2024, "", false, "go", "tabular"⟩ [".go"] = false :=
  c3_extension_gate ⟨"b.py", 2024, 1, 15, 0⟩
    ⟨".", 15, 1, 2024, "", false, "go", "tabular"⟩ [".go"]
    (by decide) (by decide)

/-! ## C4 -/

/-- C4: with no combined filter, or a malformed one (the string does
not split into exactly three parts — the fallback case of the code),
the date decision is the conjunction of the three independent filters:
a non-zero filter must equal the file's field, a zero filter constrains
nothing, and with all three zero the right-hand side is `true`, so the
date never causes rejection. -/
theorem c4_independent_conjunction (f : FileMeta) (c : Config)
    (h : (goSplit c.allDate '/').length ≠ 3) :
    dateMatch f c
      = ((c.year == 0 || c.year == f.modYear)
          && (c.month == 0 || c.month == f.modMonth)
          && (c.day == 0 || c.day == f.modDay)) := by
  rw [dateMatch_fallback f c h, independentDateMatch_eq]

/-- C4 witness: year filter 2024 matches but month filter 6 differs
from the file's month 5, so the conjunction rejects. -/
theorem c4_witness :
    dateMatch ⟨"a.go", 2024, 5, 15, 0⟩
      ⟨".", 0, 6, 2024, "bad-date", false, "", "tabular"⟩ = false := by
  rw [c4_independent_conjunction ⟨"a.go", 2024, 5, 15, 0⟩
    ⟨".", 0, 6, 2024, "bad-date", false, "", "tabular"⟩ (by decide)]
  decide

/-! ## Traversal counting: helper lemmas -/

/-- `scanFlat` bumps the counter exactly once per directory entry —
before the directory test and before the metadata read. -/
theorem scanFlatGo_count (c : Config) (exts : List String) :
    ∀ (entries : List DirEntry) (st : Nat × List FileResult),
      (scanFlatGo c exts entries st).1 = st.1 + entries.length
  | [], st => rfl
  | e :: rest, st => by
      simp only [scanFlatGo]
      split
      · rw [scanFlatGo_count c exts rest]
        simp only [List.length_cons]
        omega
      · split
        · rw [scanFlatGo_count c exts rest]
          simp only [List.length_cons]
          omega
        · split
          · rw [scanFlatGo_count c exts rest]
            simp only [List.length_cons]
            omega
          · rw [scanFlatGo_count c exts rest]
            simp only [List.length_cons]
            omega

mutual

/-- Walking one node adds exactly its visited-file count to the
counter. -/
theorem walkNode_count (c : Config) (exts : List String) :
    ∀ (n : FSNode) (st : Nat × List FileResult),
      (walkNode c exts n st).1 = st.1 + fileNodeCount n
  | .file info, st => by
      cases info with
      | none => simp [walkNode, fileNodeCount]
      | some fm =>
          by_cases h : isMatch fm c exts <;>
            simp [walkNode, fileNodeCount, h]
  | .dir nm accessErr children, st => by
      cases accessErr with
      | false =>
          rw [show walkNode c exts (.dir nm false children) st
                = walkList c exts children st from rfl,
             walkList_count c exts children st]
          rfl
      | true => simp [walkNode, fileNodeCount]

/-- Walking a sibling list adds the sum of the visited-file counts. -/
theorem walkList_count (c : Config) (exts : List String) :
    ∀ (l : List FSNode) (st : Nat × List FileResult),
      (walkList c exts l st).1 = st.1 + fileListCount l
  | [], st => by simp [walkList, fileListCount]
  | n :: rest, st => by
      rw [show walkList c exts (n :: rest) st
            = walkList c exts rest (walkNode c exts n st) from rfl,
         walkList_count c exts rest, walkNode_count c exts n st,
         fileListCount]
      omega

end

/-- Appending sibling lists walks them in sequence. -/
theorem walkList_append (c : Config) (exts : List String) :
    ∀ (l1 l2 : List FSNode) (st : Nat × List FileResult),
      walkList c exts (l1 ++ l2) st = walkList c exts l2 (walkList c exts l1 st)
  | [], l2, st => rfl
  | n :: rest, l2, st => by
      rw [List.cons_append,
         show walkList c exts (n :: (rest ++ l2)) st
            = walkList c exts (rest ++ l2) (walkNode c exts n st) from rfl,
         walkList_append c exts rest l2]
      rfl

/-! ## C8 -/

/-- The scanned count the claim describes for a flat listing: files
only, and only those whose metadata is readable. -/
def claimFlatScanned (entries : List DirEntry) : Nat :=
  (entries.filter (fun e => !e.isDir && e.info.isSome)).length

/-- C8 counterexample: a flat listing holding one subdirectory.  The
claim says directories never increment the scanned count, but
`scanFlat` increments before its `IsDir` test, so the code counts 1
where the claim demands 0. -/
theorem c8_counterexample :
    (scanFlatGo ⟨".", 0, 0, 0, "", false, "", "tabular"⟩ []
        [⟨"sub", true, none⟩] (0, [])).1 = 1 ∧
    claimFlatScanned [⟨"sub", true, none⟩] = 0 := by
  decide

/-- C8 (amended): in shallow mode every directory entry increments the
scanned count — directories and entries with unreadable metadata
included — because the increment precedes both tests; in deep mode
directories are indeed never counted, but a visited file increments the
counter even when its metadata cannot be read, the increment again
preceding the read. -/
theorem c8_amended_scanned_counts :
    (∀ (c : Config) (exts : List String) (entries : List DirEntry)
        (st : Nat × List FileResult),
      (scanFlatGo c exts entries st).1 = st.1 + entries.length) ∧
    (∀ (c : Config) (exts : List String) (n : FSNode)
        (st : Nat × List FileResult),
      (walkNode c exts n st).1 = st.1 + fileNodeCount n) :=
  ⟨fun c exts entries st => scanFlatGo_count c exts entries st,
   fun c exts n st => walkNode_count c exts n st⟩

/-! ## C9 -/

/-- C9: a subdirectory that raises an access error during a deep scan
is pruned — walking any sibling list containing it is walking the list
without it, counters and results untouched by the branch — and the scan
is not aborted: concretely, with an unreadable subdirectory next to a
readable one, the sibling's matching file is still the result list. -/
theorem c9_errored_subdir_pruned :
    (∀ (c : Config) (exts : List String) (pre post : List FSNode)
        (nm : String) (ch : List FSNode) (st : Nat × List FileResult),
      walkList c exts (pre ++ FSNode.dir nm true ch :: post) st
        = walkList c exts (pre ++ post) st) ∧
    (walkNode ⟨".", 0, 0, 0, "", true, "", "tabular"⟩ []
        (.dir "root" false
          [.dir "bad" true [.file (some ⟨"x.go", 2024, 1, 15, 1⟩)],
           .dir "ok" false [.file (some ⟨"c.go", 2024, 1, 15, 2⟩)]])
        (0, [])).2 = [buildResult ⟨"c.go", 2024, 1, 15, 2⟩] := by
  constructor
  · intro c exts pre post nm ch st
    rw [walkList_append, walkList_append]
    rfl
  · decide

/-! ## C6 -/

/-- C6: sizes render in the largest applicable 1024-based unit — every
non-negative count below 1024 renders as the bare integer with the B
unit, and the thresholds and two-decimal rounding give the listed
values at 0 B, 1.50 KB, 1.00 MB and 1.00 GB. -/
theorem c6_format_size (b : Int) (h0 : 0 ≤ b) (h1 : b < 1024) :
    formatSize b = toString b ++ " B" ∧
    formatSize 0 = "0 B" ∧ formatSize 1536 = "1.50 KB" ∧
    formatSize 1048576 = "1.00 MB" ∧ formatSize 1073741824 = "1.00 GB" := by
  refine ⟨?_, by decide, by decide, by decide, by decide⟩
  unfold formatSize
  rw [if_neg (by omega), if_neg (by omega), if_neg (by omega)]

/-- C6 witness: the bytes branch applied at 512. -/
theorem c6_witness : formatSize 512 = "512 B" :=
  (c6_format_size 512 (by decide) (by decide)).1

/-! ## C7 -/

/-- C7: with a file-producing format the output name is the fixed
prefix, the extension token (commas to underscores, or the `all`
sentinel when the flag is empty) and the format's extension: the
`go,py` JSON run writes `output_go_py.json`, the filterless Markdown
run writes `output_all.md`; with an empty extension flag the sentinel
appears for every suffix. -/
theorem c7_generated_filenames :
    handleOutputAction ⟨".", 0, 0, 0, "", false, "go,py", "json"⟩
      = .saveFile "output_go_py.json" ∧
    handleOutputAction ⟨".", 0, 0, 0, "", false, "", "md"⟩
      = .saveFile "output_all.md" ∧
    (∀ suf : String, generateFilename "output" "" suf = "output_all." ++ suf) := by
  refine ⟨by decide, by decide, ?_⟩
  intro suf
  rfl

/-! ## C10 -/

/-- C10: when the scan succeeds with zero matches, `main` prints the
warning and returns — in particular no formatter ever runs, so no
output file is created even under a file-producing format, and the
process falls off the end of `main` with exit status zero. -/
theorem c10_no_matches_no_output (c : Config) :
    mainOutput [] c = .warnNoFiles ∧
    ∀ a : OutputAction, mainOutput [] c ≠ .out a := by
  constructor
  · rfl
  · intro a h
    cases h

/-! ## C5: normalization is idempotent

The chain below works at the character level: lowering is idempotent
and never creates a space character, a trimmed list is not changed by
trimming again, and the dot prepended by normalization survives every
later pass. -/

/-- `Char.ofNat` on a valid code point keeps the code point. -/
theorem toNat_ofNat_valid (n : Nat) (h : n.isValidChar) :
    (Char.ofNat n).toNat = n := by
  simp [Char.ofNat, h, Char.toNat, Char.ofNatAux, UInt32.toNat, UInt32.ofNatCore]

/-- ASCII lowering is idempotent. -/
theorem lowerChar_idem (c : Char) : lowerChar (lowerChar c) = lowerChar c := by
  unfold lowerChar
  by_cases h : 65 ≤ c.toNat ∧ c.toNat ≤ 90
  · rw [if_pos h]
    have ht : (Char.ofNat (c.toNat + 32)).toNat = c.toNat + 32 :=
      toNat_ofNat_valid _ (Or.inl (by omega))
    rw [if_neg (by rw [ht]; omega)]
  · rw [if_neg h, if_neg h]

/-- Lowering a non-space character yields a non-space character. -/
theorem isGoSpace_lowerChar (c : Char) (h : isGoSpace c = false) :
    isGoSpace (lowerChar c) = false := by
  unfold lowerChar
  by_cases hc : 65 ≤ c.toNat ∧ c.toNat ≤ 90
  · rw [if_pos hc]
    have ht : (Char.ofNat (c.toNat + 32)).toNat = c.toNat + 32 :=
      toNat_ofNat_valid _ (Or.inl (by omega))
    simp only [isGoSpace, ht, decide_eq_false_iff_not]
    intro hm
    simp only [spaceCodes, List.mem_cons, List.not_mem_nil, or_false] at hm
    omega
  · rw [if_neg hc]
    exact h

/-- The head surviving `dropWhile` fails the predicate. -/
theorem head_dropWhile_false {α : Type} (p : α → Bool) (l : List α) (c : α)
    (h : (l.dropWhile p).head? = some c) : p c = false := by
  have hm := List.head?_dropWhile_not p l
  rw [h] at hm
  exact hm

/-- A list whose head fails the predicate is untouched by `dropWhile`. -/
theorem dropWhile_eq_self_head {α : Type} (p : α → Bool) (l : List α)
    (h : ∀ c, l.head? = some c → p c = false) : l.dropWhile p = l := by
  cases l with
  | nil => rfl
  | cons a t => simp [List.dropWhile_cons, h a rfl]

/-- The head of a trimmed list is not a space. -/
theorem trimChars_head (l : List Char) (c : Char)
    (h : (trimChars l).head? = some c) : isGoSpace c = false := by
  unfold trimChars at h
  rw [List.head?_reverse] at h
  have hsplit := List.takeWhile_append_dropWhile isGoSpace
    (l.dropWhile isGoSpace).reverse
  have hlast : ((l.dropWhile isGoSpace).reverse).getLast? = some c := by
    conv_lhs => rw [← hsplit]
    rw [List.getLast?_append, h]
    rfl
  rw [List.getLast?_reverse] at hlast
  exact head_dropWhile_false _ _ _ hlast

/-- The last element of a trimmed list is not a space. -/
theorem trimChars_getLast (l : List Char) (c : Char)
    (h : (trimChars l).getLast? = some c) : isGoSpace c = false := by
  unfold trimChars at h
  rw [List.getLast?_reverse] at h
  exact head_dropWhile_false _ _ _ h

/-- A list with no space at either end is untouched by trimming. -/
theorem trimChars_eq_self (l : List Char)
    (hh : ∀ c, l.head? = some c → isGoSpace c = false)
    (hl : ∀ c, l.getLast? = some c → isGoSpace c = false) :
    trimChars l = l := by
  unfold trimChars
  rw [dropWhile_eq_self_head _ _ hh,
     dropWhile_eq_self_head _ _ (fun c hc => hl c (by rwa [List.head?_reverse] at hc))]
  exact List.reverse_reverse l

/-- Trimming is idempotent. -/
theorem trimChars_idem (l : List Char) : trimChars (trimChars l) = trimChars l :=
  trimChars_eq_self _ (trimChars_head l) (trimChars_getLast l)

/-- Lowering a whole list is idempotent. -/
theorem map_lowerChar_idem (l : List Char) :
    (l.map lowerChar).map lowerChar = l.map lowerChar := by
  rw [List.map_map]
  exact List.map_congr_left (fun c _ => lowerChar_idem c)

/-- A normalized entry always starts with a dot. -/
theorem normalizeExtChars_head (l : List Char) :
    (normalizeExtChars l).head? = some '.' := by
  unfold normalizeExtChars
  by_cases h : ((trimChars l).map lowerChar).head? = some '.'
  · rw [if_pos h]
    exact h
  · rw [if_neg h]
    rfl

/-- A normalized entry is already lowercase. -/
theorem normalizeExtChars_lower (l : List Char) :
    (normalizeExtChars l).map lowerChar = normalizeExtChars l := by
  unfold normalizeExtChars
  by_cases h : ((trimChars l).map lowerChar).head? = some '.'
  · rw [if_pos h]
    exact map_lowerChar_idem _
  · rw [if_neg h, List.map_cons, map_lowerChar_idem _,
       show lowerChar '.' = '.' from by decide]

/-- The last character of the trimmed-and-lowered core of an entry is
not a space. -/
theorem getLast_core_not_space (l : List Char) (c : Char)
    (h : ((trimChars l).map lowerChar).getLast? = some c) :
    isGoSpace c = false := by
  rw [List.getLast?_map] at h
  cases hg : (trimChars l).getLast? with
  | none => rw [hg] at h; cases h
  | some c0 =>
      rw [hg] at h
      injection h with h1
      subst h1
      exact isGoSpace_lowerChar c0 (trimChars_getLast l c0 hg)

/-- A normalized entry has no space at either end, so trimming leaves
it alone. -/
theorem normalizeExtChars_trim (l : List Char) :
    trimChars (normalizeExtChars l) = normalizeExtChars l := by
  apply trimChars_eq_self
  · intro c hc
    rw [normalizeExtChars_head l] at hc
    injection hc with h1
    subst h1
    decide
  · intro c hc
    unfold normalizeExtChars at hc
    by_cases h : ((trimChars l).map lowerChar).head? = some '.'
    · rw [if_pos h] at hc
      exact getLast_core_not_space l c hc
    · rw [if_neg h] at hc
      cases he : (trimChars l).map lowerChar with
      | nil =>
          rw [he] at hc
          injection hc with h1
          subst h1
          decide
      | cons x xs =>
          rw [he, List.getLast?_cons_cons] at hc
          rw [← he] at hc
          exact getLast_core_not_space l c hc

/-- Normalizing one entry is idempotent (character level). -/
theorem normalizeExtChars_idem (l : List Char) :
    normalizeExtChars (normalizeExtChars l) = normalizeExtChars l := by
  calc normalizeExtChars (normalizeExtChars l)
      = (if ((trimChars (normalizeExtChars l)).map lowerChar).head? = some '.'
          then (trimChars (normalizeExtChars l)).map lowerChar
          else '.' :: (trimChars (normalizeExtChars l)).map lowerChar) := rfl
    _ = normalizeExtChars l := by
        rw [normalizeExtChars_trim l, normalizeExtChars_lower l,
           if_pos (normalizeExtChars_head l)]

/-- Normalizing one entry is idempotent. -/
theorem normalizeExt_idem (p : String) :
    normalizeExt (normalizeExt p) = normalizeExt p :=
  congrArg String.mk (normalizeExtChars_idem p.data)

/-- A stored extension starts with a dot. -/
theorem normalizeExt_head (p : String) :
    (normalizeExt p).data.head? = some '.' :=
  normalizeExtChars_head p.data

/-- A stored extension is lowercase. -/
theorem normalizeExt_lower (p : String) :
    goToLower (normalizeExt p) = normalizeExt p :=
  congrArg String.mk (normalizeExtChars_lower p.data)

/-- C5: extension normalization is idempotent — re-normalizing every
member of the built set gives the same set — and every stored extension
starts with a dot and is unchanged by lowering. -/
theorem c5_normalization_idempotent (s : String) :
    (buildExts s).map normalizeExt = buildExts s ∧
    ∀ e ∈ buildExts s, e.data.head? = some '.' ∧ goToLower e = e := by
  constructor
  · unfold buildExts
    by_cases h : s == ""
    · rw [if_pos h]
      rfl
    · rw [if_neg h, List.map_map]
      refine List.map_congr_left (fun p _ => ?_)
      exact normalizeExt_idem p
  · intro e he
    unfold buildExts at he
    by_cases h : s == ""
    · rw [if_pos h] at he
      cases he
    · rw [if_neg h] at he
      rcases List.mem_map.mp he with ⟨p, _, rfl⟩
      exact ⟨normalizeExt_head p, normalizeExt_lower p⟩

/-- C5 witness: the raw list `"Go, PY"` normalizes to `[".go", ".py"]`,
re-normalization fixes it, and the stored `".py"` is dotted and
lowercase. -/
theorem c5_witness :
    (buildExts "Go, PY").map normalizeExt = buildExts "Go, PY" ∧
    (String.data ".py").head? = some '.' ∧ goToLower ".py" = ".py" :=
  ⟨(c5_normalization_idempotent "Go, PY").1,
   (c5_normalization_idempotent "Go, PY").2 ".py" (by decide)⟩

/-! ## Remaining witnesses -/

/-- C7 witness: the `all` sentinel instantiated at the JSON suffix. -/
theorem c7_witness : generateFilename "output" "" "json" = "output_all.json" :=
  c7_generated_filenames.2.2 "json"

/-- C8 witness: one flat file entry with unreadable metadata still
counts. -/
theorem c8_amended_witness :
    (scanFlatGo ⟨".", 0, 0, 0, "", false, "", "tabular"⟩ []
        [⟨"f.go", false, none⟩] (0, [])).1 = 0 + 1 :=
  c8_amended_scanned_counts.1 ⟨".", 0, 0, 0, "", false, "", "tabular"⟩ []
    [⟨"f.go", false, none⟩] (0, [])

/-- C9 witness: a lone unreadable subdirectory leaves the state
untouched. -/
theorem c9_witness :
    walkList ⟨".", 0, 0, 0, "", true, "", "tabular"⟩ []
      [FSNode.dir "bad" true [FSNode.file none]] (0, []) = (0, []) :=
  (c9_errored_subdir_pruned.1 ⟨".", 0, 0, 0, "", true, "", "tabular"⟩ []
    [] [] "bad" [FSNode.file none] (0, [])).trans rfl

/-- C10 witness: zero results under the JSON format still warn. -/
theorem c10_witness :
    mainOutput [] ⟨".", 0, 0, 0, "", false, "go", "json"⟩ = .warnNoFiles :=
  (c10_no_matches_no_output ⟨".", 0, 0, 0, "", false, "go", "json"⟩).1
